import Mathlib

/-!
Verification of the packwiz Index Reconciliation & Installation Engine
(modrinth import/diff, modify, core mod metadata) against its
natural-language specification.

Each Go function referenced by a claim is embedded shallowly below:
pure functions become Lean functions over `String`/`List`; the stateful
batch-install loop becomes explicit state passing over `ImportState`; filesystem
and network effects are threaded explicitly (a `Disk` record, fetch
oracles).  Go strings are modelled as Lean `String` (the inputs involved
are ASCII, where Go byte-wise operations and Lean character-wise
operations agree); Go maps are modelled as association lists whose list
order stands for the (unspecified, randomized) iteration order of a Go
`range` over the map.
-/

namespace Packwiz

/-! ## core/mod.go: sides and slugification -/

/-- Go constant `ServerSide` (core/mod.go). -/
def ServerSide : String := "server"

/-- Go constant `ClientSide` (core/mod.go). -/
def ClientSide : String := "client"

/-- Go constant `UniversalSide` (core/mod.go). -/
def UniversalSide : String := "both"

/-- Go constant `EmptySide` (core/mod.go). -/
def EmptySide : String := ""

/-- Models Go `regexp` replacement of the pattern open-paren `.*` close-paren
by the empty string (`slugifyRegex1`, core/mod.go).  With leftmost-first
greedy matching on a newline-free string this deletes everything from the
first opening parenthesis through the last closing parenthesis, provided
the first `(` comes before the last `)`; afterwards no further match
remains.  (Go `.` does not match a newline; the strings handled here are
single-line display names.) -/
def stripParenthetical (l : List Char) : List Char :=
  match l.findIdx? (fun c => c == '('), (l.reverse.findIdx? (fun c => c == ')')) with
  | some i, some jr =>
    let j := l.length - 1 - jr
    if i < j then l.take i ++ l.drop (j + 1) else l
  | _, _ => l

/-- True when the pattern space-dash-space followed by at least one character
(`slugifyRegex2`, a space, a dash, a space then `.+`) matches at index `i`. -/
def isDashSuffixAt (l : List Char) (i : Nat) : Bool :=
  decide ((l.drop i).take 3 = [' ', '-', ' ']) && decide (i + 4 ≤ l.length)

/-- Models Go `regexp` replacement of `slugifyRegex2` (space dash space `.+`)
by the empty string: the leftmost match starts at the first index where the
pattern matches and, being greedy on a newline-free string, runs to the end
of the string. -/
def stripDashSuffix (l : List Char) : List Char :=
  match (List.range l.length).find? (fun i => isDashSuffixAt l i) with
  | some i => l.take i
  | none => l

/-- A character kept verbatim by `slugifyRegex3` (lowercase letter or digit). -/
def isSlugChar (c : Char) : Bool :=
  decide (('a' ≤ c ∧ c ≤ 'z') ∨ ('0' ≤ c ∧ c ≤ '9'))

/-- Models Go `regexp` replacement of `slugifyRegex3` (any single character
that is not a lowercase letter or digit) by a dash. -/
def replaceNonAlnum (l : List Char) : List Char :=
  l.map (fun c => if isSlugChar c then c else '-')

/-- Models Go `regexp` replacement of `slugifyRegex4` (a run of dashes) by a
single dash. -/
def collapseDashes : List Char → List Char
  | [] => []
  | c :: rest =>
    match collapseDashes rest with
    | [] => [c]
    | d :: tail => if c == '-' && d == '-' then d :: tail else c :: d :: tail

/-- Models Go `regexp` replacement of `slugifyRegex5` (a dash at the very
start or the very end of the string) by the empty string: it removes one
leading dash and one trailing dash. -/
def trimDashes (l : List Char) : List Char :=
  let l1 := match l with
    | '-' :: t => t
    | other => other
  match l1.reverse with
  | '-' :: t => t.reverse
  | _ => l1

/-- Go `core.SlugifyName` (core/mod.go): lowercase, drop a parenthesized
span, drop a trailing " - text" suffix, turn every other character into a
dash, collapse dash runs, trim boundary dashes.  `Char.toLower` agrees with
Go `strings.ToLower` on ASCII input. -/
def SlugifyName (name : String) : String :=
  let lower := name.data.map Char.toLower
  let noBrackets := stripParenthetical lower
  let noSuffix := stripDashSuffix noBrackets
  let limitedChars := replaceNonAlnum noSuffix
  let noDuplicateDashes := collapseDashes limitedChars
  let noLeadingTrailingDashes := trimDashes noDuplicateDashes
  String.mk noLeadingTrailingDashes

/-! ## modrinth/import.go: `determineSideFromEnv` -/

/-- Go `FileEnv` (modrinth/import.go): per-file environment requirement. -/
structure FileEnv where
  client : String
  server : String
deriving DecidableEq, Repr

/-- Go `determineSideFromEnv` (modrinth/import.go): returns
(side, shouldSkip, warning), transcribed branch for branch. -/
def determineSideFromEnv (env : Option FileEnv) : String × Bool × String :=
  match env with
  | none => (UniversalSide, false, "")
  | some env =>
    let clientSupported := env.client == "required" || env.client == "optional"
    let serverSupported := env.server == "required" || env.server == "optional"
    let clientUnsupported := env.client == "unsupported"
    let serverUnsupported := env.server == "unsupported"
    let clientUnknown := env.client == "unknown" ||
      (env.client != "required" && env.client != "optional" &&
       env.client != "unsupported" && env.client != "")
    let serverUnknown := env.server == "unknown" ||
      (env.server != "required" && env.server != "optional" &&
       env.server != "unsupported" && env.server != "")
    if clientUnsupported && serverUnsupported then ("", true, "")
    else if (clientUnsupported && (env.server == "" || serverUnknown)) ||
            (serverUnsupported && (env.client == "" || clientUnknown)) then ("", true, "")
    else
      let warnings : List String :=
        (if clientUnknown then ["client side compatibility unknown"] else []) ++
        (if serverUnknown then ["server side compatibility unknown"] else [])
      let warningMsg :=
        if warnings.length > 0 then
          "Unknown side compatibility: " ++ String.intercalate ", " warnings
        else ""
      if clientSupported && serverSupported then (UniversalSide, false, warningMsg)
      else if clientSupported || (clientUnknown && !serverSupported && !serverUnsupported) then
        (ClientSide, false, warningMsg)
      else if serverSupported || (serverUnknown && !clientSupported && !clientUnsupported) then
        (ServerSide, false, warningMsg)
      else if clientUnknown || serverUnknown then (UniversalSide, false, warningMsg)
      else if clientUnsupported then (ServerSide, false, warningMsg)
      else if serverUnsupported then (ClientSide, false, warningMsg)
      else (UniversalSide, false, warningMsg)

/-- The four explicit environment signal values of the spec's decision table. -/
def envSignalValues : List String := ["required", "optional", "unsupported", "unknown"]

/-- A signal counted as supported by `determineSideFromEnv`. -/
def supportedSig (x : String) : Bool := x == "required" || x == "optional"

/-- The decision table `determineSideFromEnv` actually implements over the
four explicit signal values, as (side, shouldSkip).  It agrees with the
spec's table except on the (unknown, unknown) cell, where the code's
client-unknown fallback branch fires before its universal default. -/
def codeSideTable (c s : String) : String × Bool :=
  if supportedSig c then
    if supportedSig s then (UniversalSide, false) else (ClientSide, false)
  else if c == "unsupported" then
    if supportedSig s then (ServerSide, false) else ("", true)
  else
    if supportedSig s then (ServerSide, false)
    else if s == "unsupported" then ("", true)
    else (ClientSide, false)

/-! ## core/mod.go: the MetaRecord data model -/

/-- Go `ModOption` (core/mod.go): optional-install metadata.  The Go field
`Default` is rendered `defaultEnabled` here (`default` is reserved in Lean);
the TOML tags make `description` and `default` omittable but always emit
`optional`. -/
structure ModOption where
  optional : Bool
  description : String
  defaultEnabled : Bool
deriving DecidableEq, Repr

/-- Go `ModDownload` (core/mod.go). -/
structure ModDownload where
  url : String
  disabledClientPlatforms : List String
  hashFormat : String
  hash : String
  mode : String
deriving DecidableEq, Repr

/-- The parsed payload of one update-source entry.  The modrinth updater
parses its entry into `mrUpdateData{ProjectID, InstalledVersion}`
(modrinth package); every other registered updater's payload is opaque to
the flows verified here. -/
inductive UpdateValue where
  | modrinthUpd (projectID : String) (installedVersion : String)
  | otherUpd
deriving DecidableEq, Repr

/-- Go `Mod` (core/mod.go): one artifact's metadata record.  `update` models
the Go map from source name to parsed update data as an association list;
`option` is the nilable `*ModOption` pointer, and the `option,omitempty`
TOML tag means the written record carries an `option` block exactly when
the pointer is non-nil. -/
structure Mod where
  metaFile : String
  name : String
  fileName : String
  side : String
  pin : Bool
  download : ModDownload
  update : List (String × UpdateValue)
  option : Option ModOption
deriving DecidableEq, Repr

/-- Whether the TOML record written for `m` contains an `option` block:
with the `option,omitempty` tag this is exactly when the pointer is
non-nil (a non-nil all-default block still serializes, as `optional`
itself carries no `omitempty`). -/
def writtenRecordHasOptionBlock (m : Mod) : Bool :=
  m.option.isSome

/-- Go `mod.GetParsedUpdateData("modrinth")` followed by the
`data.(mrUpdateData)` type assertion: the (projectID, installedVersion)
pair when the record carries a modrinth update-source entry. -/
def getModrinthUpdate (m : Mod) : Option (String × String) :=
  match m.update.lookup "modrinth" with
  | some (UpdateValue.modrinthUpd pid ver) => some (pid, ver)
  | _ => none

/-! ## core/mod.go: side and platform validation helpers -/

/-- A character Go `unicode.IsSpace` recognizes, restricted to ASCII
(the only characters these flows trim). -/
def isGoSpace (c : Char) : Bool :=
  c == ' ' || c == '\t' || c == '\n' || c == '\x0b' || c == '\x0c' || c == '\r'

/-- Go `strings.TrimSpace` on ASCII input. -/
def goTrimSpace (s : String) : String :=
  String.mk (((s.data.dropWhile isGoSpace).reverse.dropWhile isGoSpace).reverse)

/-- Go `strings.ToLower` on ASCII input. -/
def goToLowerStr (s : String) : String :=
  String.mk (s.data.map Char.toLower)

/-- Go `core.ValidateSide` (core/mod.go), with `true` standing for the nil
error: empty is invalid, and the valid values are client, server and
both (listed twice in the Go slice). -/
def ValidateSide (side : String) : Bool :=
  if side == "" then false
  else side == ClientSide || side == ServerSide || side == UniversalSide || side == "both"

/-- Go `core.NormalizeSide` (core/mod.go): trim, and map the user-facing
"both" onto `UniversalSide`. -/
def NormalizeSide (side : String) : String :=
  let side := goTrimSpace side
  if side == "both" then UniversalSide else side

/-- Go `core.ValidClientPlatforms` (core/mod.go). -/
def ValidClientPlatforms : List String := ["macos", "linux", "windows"]

/-- Go `core.ValidateClientPlatforms` (core/mod.go), `true` for the nil
error: every non-empty entry must, after trimming and lowercasing, be one
of the valid platforms. -/
def ValidateClientPlatforms (platforms : List String) : Bool :=
  platforms.all (fun platform =>
    if platform == "" then true
    else ValidClientPlatforms.contains (goToLowerStr (goTrimSpace platform)))

/-- Go `core.NormalizeClientPlatforms` (core/mod.go): drop empties, trim and
lowercase, keep only valid platforms, deduplicate preserving first
occurrence (the accumulator pairs the output list with the seen set). -/
def NormalizeClientPlatforms (platforms : List String) : List String :=
  (platforms.foldl
    (fun (acc : List String × List String) platform =>
      if platform == "" then acc
      else
        let p := goToLowerStr (goTrimSpace platform)
        if acc.2.contains p then acc
        else if ValidClientPlatforms.contains p then (acc.1 ++ [p], acc.2 ++ [p])
        else acc)
    ([], [])).1

/-! ## cmd/modify.go: `modifyModProperties` -/

/-- Which flags the modify invocation passed (`cmd.Flags().Changed(...)`):
`some v` models a flag that was set to `v`, `none` an untouched flag. -/
structure ModifyFlags where
  side : Option String
  disabledClientPlatforms : Option (List String)
  pin : Option Bool
  optional : Option Bool
  optionalDescription : Option String
  optionalDefault : Option Bool
deriving DecidableEq, Repr

/-- Outcome of `modifyModProperties` on an already-loaded mod: a validation
failure exits the process (nothing written), an all-defaults invocation
reports "No changes specified" (nothing written), otherwise the updated
record is written to disk and the index refreshed. -/
inductive ModifyResult where
  | exitErr
  | noChanges (m : Mod)
  | written (m : Mod)
deriving DecidableEq, Repr

/-- The `--side` branch of `modifyModProperties` (cmd/modify.go): trim,
validate (exit on failure), normalize, assign. -/
def applySideFlag (m : Mod) (f : ModifyFlags) : Option (Mod × Bool) :=
  match f.side with
  | some s =>
    let s := goTrimSpace s
    if ValidateSide s then some ({ m with side := NormalizeSide s }, true) else none
  | none => some (m, false)

/-- The `--disabled-client-platforms` branch of `modifyModProperties`:
validate (exit on failure), normalize, assign. -/
def applyPlatformsFlag (m : Mod) (f : ModifyFlags) (changed : Bool) : Option (Mod × Bool) :=
  match f.disabledClientPlatforms with
  | some ps =>
    if ValidateClientPlatforms ps then
      some ({ m with download :=
        { m.download with disabledClientPlatforms := NormalizeClientPlatforms ps } }, true)
    else none
  | none => some (m, changed)

/-- The `--pin` branch of `modifyModProperties`. -/
def applyPinFlag (m : Mod) (f : ModifyFlags) (changed : Bool) : Mod × Bool :=
  match f.pin with
  | some p => ({ m with pin := p }, true)
  | none => (m, changed)

/-- The optional-settings block of `modifyModProperties` (cmd/modify.go):
when any of the three optional flags changed, materialize the `Option`
struct, apply each changed flag, then remove the struct again when all
three fields are left at their defaults.  The removal check lives inside
this block: it does not run when no optional flag was touched. -/
def applyOptionalFlags (m : Mod) (f : ModifyFlags) (changed : Bool) : Mod × Bool :=
  if f.optional.isSome || f.optionalDescription.isSome || f.optionalDefault.isSome then
    let o0 := m.option.getD { optional := false, description := "", defaultEnabled := false }
    let o1 := match f.optional with
      | some b => { o0 with optional := b }
      | none => o0
    let o2 := match f.optionalDescription with
      | some d => { o1 with description := d }
      | none => o1
    let o3 := match f.optionalDefault with
      | some b => { o2 with defaultEnabled := b }
      | none => o2
    let mOpt := { m with option := some o3 }
    let mNorm :=
      if !o3.optional && o3.description == "" && !o3.defaultEnabled then
        { mOpt with option := none }
      else mOpt
    (mNorm, true)
  else (m, changed)

/-- Go `modifyModProperties` (cmd/modify.go) after the mod has been located
and loaded: the side, platforms, pin and optional branches in program
order, then the changed check deciding whether the record is written. -/
def modifyModProperties (m : Mod) (f : ModifyFlags) : ModifyResult :=
  match applySideFlag m f with
  | none => ModifyResult.exitErr
  | some (m1, changed1) =>
    match applyPlatformsFlag m1 f changed1 with
    | none => ModifyResult.exitErr
    | some (m2, changed2) =>
      let (m3, changed3) := applyPinFlag m2 f changed2
      let (m4, changed4) := applyOptionalFlags m3 f changed3
      if changed4 then ModifyResult.written m4 else ModifyResult.noChanges m4

/-! ## modrinth diff: source tally (`getCurrentModrinthMods`) -/

/-- The bucket a loaded record is tallied into by `getCurrentModrinthMods`
(modrinth diff command). -/
inductive ModSource where
  | modrinthSrc
  | curseforgeSrc
  | urlSrc
  | otherSrc
deriving DecidableEq, Repr

/-- Whether `getCurrentModrinthMods` attributes the record to the modrinth
catalog: a modrinth update entry whose project ID is non-empty. -/
def modrinthTallied (m : Mod) : Bool :=
  match getModrinthUpdate m with
  | some (pid, _) => pid != ""
  | none => false

/-- The per-record tally decision of `getCurrentModrinthMods`: modrinth when
a modrinth update entry with a non-empty project ID exists; else curseforge
when a curseforge entry exists; else, only for a non-empty download URL,
"other" when some update key is neither modrinth nor curseforge and
"direct URL" otherwise; a record with empty URL and no catalog entry is
tallied nowhere (`none`). -/
def classifyModSource (m : Mod) : Option ModSource :=
  let hasModrinth := modrinthTallied m
  if hasModrinth then some ModSource.modrinthSrc
  else if (m.update.lookup "curseforge").isSome then some ModSource.curseforgeSrc
  else if m.download.url != "" then
    if m.update.any (fun kv => kv.1 != "modrinth" && kv.1 != "curseforge") then
      some ModSource.otherSrc
    else some ModSource.urlSrc
  else none

/-! ## modrinth/import.go: rate-limited project fetch -/

/-- Go `containsAny`'s inner scan: `s` contains `sub` as a contiguous
substring. -/
def containsSubstring (s sub : String) : Bool :=
  (List.range (s.data.length + 1)).any
    (fun i => decide (((s.data.drop i).take sub.data.length) = sub.data))

/-- Go `containsAny` (modrinth/import.go). -/
def containsAny (s : String) (substrings : List String) : Bool :=
  substrings.any (fun sub => containsSubstring s sub)

/-- The rate-limit indicators `getProjectWithRateLimit` checks the error
message for. -/
def rateLimitIndicators : List String :=
  ["429", "rate limit", "Rate limit", "too many requests", "Too Many Requests"]

/-- One remote project record (the fields these flows read). -/
structure MrProject where
  id : String
  title : String
  clientSide : String
  serverSide : String
deriving DecidableEq, Repr

/-- Result of one `mrDefaultClient.Projects.Get` call. -/
inductive FetchResult where
  | ok (p : MrProject)
  | err (msg : String)
deriving DecidableEq, Repr

/-- The retry loop of Go `getProjectWithRateLimit` (modrinth/import.go),
driven by an oracle giving the outcome of the k-th `Projects.Get` call.
Arguments: remaining loop iterations (starting from `maxRetries = 3`),
calls made so far, seconds slept so far.  Result: (outcome, total calls,
total seconds slept).  A retry is taken only for a rate-limit error with
a later iteration remaining (`attempt < maxRetries-1`), after a fixed
60-second sleep.  The fuel-0 fallback mirrors the trailing error return
after the Go loop, unreachable from 3 iterations since the last iteration
always returns. -/
def rateLimitAttempts (oracle : Nat → FetchResult) :
    Nat → Nat → Nat → FetchResult × Nat × Nat
  | 0, calls, slept => (FetchResult.err "failed to get project after 3 retries", calls, slept)
  | remaining + 1, calls, slept =>
    match oracle calls with
    | FetchResult.ok p => (FetchResult.ok p, calls + 1, slept)
    | FetchResult.err msg =>
      let isRateLimit := containsAny msg rateLimitIndicators
      if isRateLimit && decide (0 < remaining) then
        rateLimitAttempts oracle remaining (calls + 1) (slept + 60)
      else (FetchResult.err msg, calls + 1, slept)

/-- Go `getProjectWithRateLimit` (modrinth/import.go): up to 3 attempts. -/
def getProjectWithRateLimit (oracle : Nat → FetchResult) : FetchResult × Nat × Nat :=
  rateLimitAttempts oracle 3 0 0

/-! ## modrinth/import.go: the import loop with checkpointing -/

/-- One entry of the pack Index (core index), as refreshed by
`index.RefreshFileWithHash(path, format, hash, true)`. -/
structure IndexEntry where
  file : String
  hashFormat : String
  hash : String
  metafile : Bool
deriving DecidableEq, Repr

/-- `index.RefreshFileWithHash`: insert the entry, overwriting any entry
already present for the same path. -/
def refreshIndexEntry (idx : List IndexEntry) (e : IndexEntry) : List IndexEntry :=
  if idx.any (fun x => x.file == e.file) then
    idx.map (fun x => if x.file == e.file then e else x)
  else idx ++ [e]

/-- The in-memory index produced by starting from `i0` and refreshing the
entries of `es` in order. -/
def indexAfter (i0 : List IndexEntry) (es : List IndexEntry) : List IndexEntry :=
  es.foldl refreshIndexEntry i0

/-- One iteration's worth of the import loop's per-item environment: the
resolved version reference (hash, version ID, project ID), whether the
mrpack manifest has a file record for the hash, whether the
rate-limit-aware project fetch ultimately succeeds, whether
`installVersionByIdWithSide` succeeds, and the index entry a successful
install refreshes. -/
structure ImportItem where
  hash : String
  versionID : String
  projectID : String
  hasFileRef : Bool
  fetchOK : Bool
  installOK : Bool
  entry : IndexEntry
deriving DecidableEq, Repr

/-- The mutable state of the import command: the in-memory Index, the
persisted (on-disk) Index, the success and skip counters, and how many
times the Index has been persisted (`index.Write` via `saveProgress` or
the final write). -/
structure ImportState where
  memIndex : List IndexEntry
  persisted : List IndexEntry
  successCount : Nat
  skippedCount : Nat
  writeCount : Nat
deriving DecidableEq, Repr

/-- Go `saveProgress` (modrinth/import.go): persist the in-memory Index
(and pack hash) — but only when at least one install succeeded. -/
def saveProgress (st : ImportState) : ImportState :=
  if 0 < st.successCount then
    { st with persisted := st.memIndex, writeCount := st.writeCount + 1 }
  else st

/-- One iteration of the import loop (modrinth/import.go): missing file
record → continue uncounted; project already installed → skip counter;
project fetch failed → continue uncounted; install failed → continue
uncounted; install succeeded → refresh the in-memory Index, bump the
success counter, and checkpoint via `saveProgress` at every 10th
success. -/
def processItem (installedProjects : List String) (st : ImportState) (it : ImportItem) :
    ImportState :=
  if !it.hasFileRef then st
  else if installedProjects.contains it.projectID then
    { st with skippedCount := st.skippedCount + 1 }
  else if !it.fetchOK then st
  else if !it.installOK then st
  else
    let st2 := { st with memIndex := refreshIndexEntry st.memIndex it.entry,
                         successCount := st.successCount + 1 }
    if st2.successCount % 10 == 0 then saveProgress st2 else st2

/-- The import loop over the resolved batch, in the (arbitrary) iteration
order the Go `range` over `versionMap` produced.  `installedProjects` is
the list `getInstalledProjectIDs` computed once before the loop; the loop
never updates it. -/
def runImportLoop (installedProjects : List String) (st : ImportState)
    (items : List ImportItem) : ImportState :=
  items.foldl (processItem installedProjects) st

/-- How the import command's process exits: the normal path after the loop,
the SIGINT/SIGTERM handler goroutine, or the deferred panic recovery. -/
inductive ExitKind where
  | normal
  | signaled
  | panicked
deriving DecidableEq, Repr

/-- What each exit path persists (modrinth/import.go): the normal path
writes the Index unconditionally after the loop; the signal handler and
the panic recovery both call `saveProgress`, which writes only when at
least one install succeeded. -/
def finishImport (kind : ExitKind) (st : ImportState) : ImportState :=
  match kind with
  | ExitKind.normal => { st with persisted := st.memIndex, writeCount := st.writeCount + 1 }
  | ExitKind.signaled => saveProgress st
  | ExitKind.panicked => saveProgress st

/-- The state the import command starts its loop from: the Index loaded
from disk (in-memory and persisted copies agree) and zeroed counters. -/
def initImportState (i0 : List IndexEntry) : ImportState :=
  { memIndex := i0, persisted := i0, successCount := 0, skippedCount := 0, writeCount := 0 }

/-- A whole import run: process the first `k` items of the batch (an
interruption after item `k`; `k = items.length` for an uninterrupted
run), then exit via `kind`. -/
def importRun (installed : List String) (items : List ImportItem)
    (i0 : List IndexEntry) (k : Nat) (kind : ExitKind) : ImportState :=
  finishImport kind (runImportLoop installed (initImportState i0) (items.take k))

/-- Whether the loop installs the item: a file record exists, the project
is not in the precomputed installed set, and both the fetch and the
install succeed. -/
def willInstall (installed : List String) (it : ImportItem) : Bool :=
  it.hasFileRef && !(installed.contains it.projectID) && it.fetchOK && it.installOK

/-- Whether the loop counts the item as a skipped duplicate. -/
def willSkipDup (installed : List String) (it : ImportItem) : Bool :=
  it.hasFileRef && installed.contains it.projectID

/-- The index entries of the items a run of the loop installs, in loop
order. -/
def installedEntries (installed : List String) (items : List ImportItem) : List IndexEntry :=
  (items.filter (willInstall installed)).map (fun it => it.entry)

/-- Invariant of the import loop after processing the prefix `p` of the
batch, starting from the freshly loaded index `i0`: the in-memory Index
reflects every install so far, the counters count installs and duplicate
skips, and the persisted Index is exactly the last multiple-of-10
checkpoint (the loop itself persists only at checkpoints). -/
def importLoopInv (installed : List String) (i0 : List IndexEntry)
    (p : List ImportItem) (st : ImportState) : Prop :=
  st.memIndex = indexAfter i0 (installedEntries installed p) ∧
  st.successCount = (installedEntries installed p).length ∧
  st.skippedCount = (p.filter (willSkipDup installed)).length ∧
  st.persisted = indexAfter i0
    ((installedEntries installed p).take
      (10 * ((installedEntries installed p).length / 10))) ∧
  st.writeCount = (installedEntries installed p).length / 10

/-! ## modrinth diff: `compareMods` and the diff pipeline -/

/-- Go `ModInfo` (modrinth diff command). -/
structure ModInfo where
  projectID : String
  versionID : String
  projectName : String
  fileName : String
  side : String
deriving DecidableEq, Repr

/-- The comparison `slices.SortFunc` is given: `strings.Compare` on the
display names, i.e. the strict lexicographic order on `ProjectName`
(byte-wise in Go, which for UTF-8 text coincides with the code-point
order compared here over the character lists). -/
def modNameLt (a b : ModInfo) : Bool :=
  decide (a.projectName.toList < b.projectName.toList)

/-- The non-strict display-name order the sorted output lists satisfy. -/
def nameLe (a b : ModInfo) : Prop := a.projectName ≤ b.projectName

/-- One step of the insertion sort Go's `slices.SortFunc` performs on small
slices: place `a` before the first element strictly greater than it, so
elements comparing equal keep their relative order (the element being
inserted lands after existing ties). -/
def goInsert (a : ModInfo) : List ModInfo → List ModInfo
  | [] => [a]
  | b :: l => if modNameLt a b then a :: b :: l else b :: goInsert a l

/-- The sort `compareMods` applies to each result list, modelled as the
left-to-right insertion sort Go's `slices.SortFunc` runs on small slices;
for any size the Go sort likewise returns some permutation of its input
ordered by the comparison. -/
def goSortByName (l : List ModInfo) : List ModInfo :=
  l.foldl (fun acc x => goInsert x acc) []

/-- The `missing` list of `compareMods` before sorting: mrpack entries, in
mrpack iteration order, whose project ID is absent from the current map. -/
def missingPre (current mrpack : List (String × ModInfo)) : List ModInfo :=
  (mrpack.filter (fun kv => (current.lookup kv.1).isNone)).map (fun kv => kv.2)

/-- The `extra` list of `compareMods` before sorting: current entries, in
current iteration order, whose project ID is absent from the mrpack map. -/
def extraPre (current mrpack : List (String × ModInfo)) : List ModInfo :=
  (current.filter (fun kv => (mrpack.lookup kv.1).isNone)).map (fun kv => kv.2)

/-- The combined entry `compareMods` reports for a version difference: the
current entry's name and side, the "old → new" version pair as display
text, and an unset file name. -/
def diffEntry (pid : String) (cm mm : ModInfo) : ModInfo :=
  { projectID := pid,
    versionID := cm.versionID ++ " → " ++ mm.versionID,
    projectName := cm.projectName,
    fileName := "",
    side := cm.side }

/-- What the `different` pass of `compareMods` produces for one current
entry: a combined entry when the project is in both maps with differing
version IDs, nothing otherwise. -/
def differentPreFn (mrpack : List (String × ModInfo)) (kv : String × ModInfo) :
    Option ModInfo :=
  match mrpack.lookup kv.1 with
  | some mrpackMod =>
    if kv.2.versionID != mrpackMod.versionID then some (diffEntry kv.1 kv.2 mrpackMod)
    else none
  | none => none

/-- The `different` list of `compareMods` before sorting. -/
def differentPre (current mrpack : List (String × ModInfo)) : List ModInfo :=
  current.filterMap (differentPreFn mrpack)

/-- Go `compareMods` (modrinth diff command) over the two project-ID-keyed
maps, each given in its Go `range` iteration order: `missing` collects
mrpack entries absent from the current map, `extra` current entries
absent from the mrpack map, `different` entries of both whose version IDs
differ (reported as the "old → new" display pair, with the current
entry's name and side and an unset file name); each list is then sorted
by display name. -/
def compareMods (current mrpack : List (String × ModInfo)) :
    List ModInfo × List ModInfo × List ModInfo :=
  (goSortByName (missingPre current mrpack),
   goSortByName (extraPre current mrpack),
   goSortByName (differentPre current mrpack))

/-- Go `HashResponse` (modrinth/import.go): one item of the batch hash
lookup response. -/
structure HashResponse where
  id : String
  projectID : String
deriving DecidableEq, Repr

/-- Go `ModSources` (modrinth diff command): tally of current-pack records
by source. -/
structure ModSources where
  modrinthCount : Nat
  curseForgeCount : Nat
  urlCount : Nat
  otherCount : Nat
deriving DecidableEq, Repr

/-- Insert-or-replace on the project-ID-keyed `mods` map of the diff
command. -/
def mapInsertMod (m : List (String × ModInfo)) (k : String) (v : ModInfo) :
    List (String × ModInfo) :=
  if m.any (fun kv => kv.1 == k) then
    m.map (fun kv => if kv.1 == k then (k, v) else kv)
  else m ++ [(k, v)]

/-- The filesystem as the diff command sees it: the pack file, the
persisted index, and the parseable metadata record files by path
(a path absent from `metaFiles` is one `core.LoadMod` fails on, which the
walk warns about and skips). -/
structure Disk where
  pack : Option String
  packIndex : Option (List IndexEntry)
  metaFiles : List (String × Mod)
deriving DecidableEq, Repr

/-- Go `getCurrentModrinthMods` (modrinth diff command): walk the index's
metafile entries, load each record, map modrinth-attributed records by
project ID and tally every record into the by-source counts via the logic
modelled by `classifyModSource`. -/
def getCurrentModrinthMods (idx : List IndexEntry) (disk : Disk) :
    List (String × ModInfo) × ModSources :=
  idx.foldl
    (fun (acc : List (String × ModInfo) × ModSources) e =>
      if e.metafile then
        match disk.metaFiles.lookup e.file with
        | none => acc
        | some m =>
          match classifyModSource m with
          | some ModSource.modrinthSrc =>
            match getModrinthUpdate m with
            | some (pid, ver) =>
              (mapInsertMod acc.1 pid
                { projectID := pid, versionID := ver, projectName := m.name,
                  fileName := m.fileName, side := m.side },
               { acc.2 with modrinthCount := acc.2.modrinthCount + 1 })
            | none => acc
          | some ModSource.curseforgeSrc =>
            (acc.1, { acc.2 with curseForgeCount := acc.2.curseForgeCount + 1 })
          | some ModSource.urlSrc =>
            (acc.1, { acc.2 with urlCount := acc.2.urlCount + 1 })
          | some ModSource.otherSrc =>
            (acc.1, { acc.2 with otherCount := acc.2.otherCount + 1 })
          | none => acc
      else acc)
    ([], { modrinthCount := 0, curseForgeCount := 0, urlCount := 0, otherCount := 0 })

/-- One file reference of the mrpack manifest (the fields the diff flow
reads). -/
structure MrpackFileRef where
  path : String
  sha512 : Option String
deriving DecidableEq, Repr

/-- The parsed `modrinth.index.json` of an mrpack (the fields the diff
flow reads). -/
structure MrpackIndex where
  name : String
  files : List MrpackFileRef
deriving DecidableEq, Repr

/-- Go `getMrpackModsWithInfo` (modrinth diff command), with the two remote
calls and the project-level side derivation supplied as oracles: collect
the sha512 hashes, resolve them to version references in one batch call,
group by project ID, fetch all projects in one batch call, then build the
project-ID-keyed map (per project, the last of its grouped versions
wins).  `none` models the command aborting on a failed remote call. -/
def getMrpackModsWithInfo (mrp : MrpackIndex)
    (lookupVersions : List String → Option (List (String × HashResponse)))
    (getProjects : List String → Option (List MrProject))
    (sideOf : MrProject → String) : Option (List (String × ModInfo)) :=
  let hashPairs := mrp.files.filterMap (fun f => f.sha512.map (fun h => (h, f)))
  let hashes := hashPairs.map (fun p => p.1)
  if hashes.isEmpty then some []
  else
    match lookupVersions hashes with
    | none => none
    | some versionMap =>
      let projectIDs := (versionMap.map (fun kv => kv.2.projectID)).eraseDups
      match getProjects projectIDs with
      | none => none
      | some projects =>
        some (projects.foldl
          (fun (mods : List (String × ModInfo)) project =>
            let side := if sideOf project == "" then UniversalSide else sideOf project
            (versionMap.filter (fun kv => kv.2.projectID == project.id)).foldl
              (fun mods kv =>
                let path := ((hashPairs.lookup kv.1).map (fun f => f.path)).getD ""
                mapInsertMod mods project.id
                  { projectID := project.id, versionID := kv.2.id,
                    projectName := project.title, fileName := path, side := side })
              mods)
          [])

/-- What the diff command reports. -/
structure DiffSummary where
  missing : List ModInfo
  extra : List ModInfo
  different : List ModInfo
  sources : ModSources
deriving DecidableEq, Repr

/-- The whole diff command (modrinth diff command) over an explicit disk
state: load the pack, load the index, parse the mrpack, analyze the
current pack, resolve the mrpack mods remotely, compare and report.
Every failure path exits without output; no path writes to `disk`. -/
def diffCmdRun (disk : Disk) (mrpackFile : Option MrpackIndex)
    (lookupVersions : List String → Option (List (String × HashResponse)))
    (getProjects : List String → Option (List MrProject))
    (sideOf : MrProject → String) : Disk × Option DiffSummary :=
  match disk.pack with
  | none => (disk, none)
  | some _ =>
    match disk.packIndex with
    | none => (disk, none)
    | some idx =>
      match mrpackFile with
      | none => (disk, none)
      | some mrp =>
        let (currentMods, sources) := getCurrentModrinthMods idx disk
        match getMrpackModsWithInfo mrp lookupVersions getProjects sideOf with
        | none => (disk, none)
        | some mrpackMods =>
          let (missing, extra, different) := compareMods currentMods mrpackMods
          (disk, some { missing := missing, extra := extra,
                        different := different, sources := sources })

/-! ## Concrete inputs used by counterexamples and witnesses -/

/-- A loaded record with no update-source entries and an empty download
URL: `getCurrentModrinthMods` tallies it into no source bucket. -/
def bareRecordNoURL : Mod :=
  { metaFile := "mods/x.pw.toml", name := "X", fileName := "x.jar", side := "", pin := false,
    download := { url := "", disabledClientPlatforms := [], hashFormat := "sha256",
                  hash := "ab", mode := "" },
    update := [], option := none }

/-- A record as loaded from a hand-maintained metadata file whose TOML
carries an explicit all-default `option` block. -/
def staleOptionMod : Mod :=
  { metaFile := "mods/a.pw.toml", name := "A", fileName := "a.jar", side := "", pin := false,
    download := { url := "u", disabledClientPlatforms := [], hashFormat := "sha256",
                  hash := "h", mode := "" },
    update := [], option := some { optional := false, description := "", defaultEnabled := false } }

/-- The stale-option record with its option block removed, as the
normalization leaves it. -/
def staleOptionModNormalized : Mod :=
  { staleOptionMod with option := none }

/-- A modify invocation that only changes the side. -/
def sideOnlyFlags : ModifyFlags :=
  { side := some "client", disabledClientPlatforms := none, pin := none,
    optional := none, optionalDescription := none, optionalDefault := none }

/-- Index entry written for the first duplicate reference. -/
def entryA1 : IndexEntry :=
  { file := "mods/a1.pw.toml", hashFormat := "sha256", hash := "x1", metafile := true }

/-- Index entry written for the second duplicate reference. -/
def entryA2 : IndexEntry :=
  { file := "mods/a2.pw.toml", hashFormat := "sha256", hash := "x2", metafile := true }

/-- First resolved version reference of project P, fully installable. -/
def dupRefA : ImportItem :=
  { hash := "h1", versionID := "v1", projectID := "P", hasFileRef := true,
    fetchOK := true, installOK := true, entry := entryA1 }

/-- Second resolved version reference of the same project P, fully
installable. -/
def dupRefB : ImportItem :=
  { hash := "h2", versionID := "v2", projectID := "P", hasFileRef := true,
    fetchOK := true, installOK := true, entry := entryA2 }

/-- A batch item whose install step fails. -/
def failingItem : ImportItem :=
  { hash := "h3", versionID := "v3", projectID := "Q", hasFileRef := true,
    fetchOK := true, installOK := false, entry := entryA1 }

/-- A current-pack entry named "A" at version 1. -/
def dupNameMod1 : ModInfo :=
  { projectID := "p1", versionID := "1", projectName := "A", fileName := "a1.jar", side := "both" }

/-- A second, distinct current-pack entry also named "A", at version 2. -/
def dupNameMod2 : ModInfo :=
  { projectID := "p2", versionID := "2", projectName := "A", fileName := "a2.jar", side := "both" }

/-- A current-pack entry with a display name distinct from the others. -/
def distinctNameMod : ModInfo :=
  { projectID := "p3", versionID := "3", projectName := "C", fileName := "c.jar", side := "both" }

/-! ## C9: the slugify scenario -/

/-- C9: `SlugifyName` applied to the exact input
"Just Enough Items (Forge Edition) - Legacy" returns "just-enough-items":
lowercasing, removing the parenthetical span, removing the trailing
" - Legacy" suffix, collapsing non-alphanumeric runs to single hyphens and
stripping boundary hyphens. -/
theorem c9_slugify_scenario :
    SlugifyName "Just Enough Items (Forge Edition) - Legacy" = "just-enough-items" := by
  decide

/-! ## C2: the side-resolution decision table -/

/-- C2 counterexample: on client = unknown, server = unknown the code
returns CLIENT (the client-unknown fallback branch fires before the
universal default), not the UNIVERSAL the claim states. -/
theorem c2_counterexample :
    determineSideFromEnv (some { client := "unknown", server := "unknown" }) =
      (ClientSide, false,
       "Unknown side compatibility: client side compatibility unknown, server side compatibility unknown") ∧
    ClientSide ≠ UniversalSide := by
  decide

/-- C2 amended: over all 16 pairs of explicit environment signals the
resolver is total into {SKIP, UNIVERSAL, CLIENT, SERVER} and follows
`codeSideTable`, which matches the spec's table on every cell except
(unknown, unknown), where the result is CLIENT rather than UNIVERSAL. -/
theorem c2_side_table_amended (c s : String)
    (hc : c ∈ envSignalValues) (hs : s ∈ envSignalValues) :
    (determineSideFromEnv (some { client := c, server := s })).1 = (codeSideTable c s).1 ∧
    (determineSideFromEnv (some { client := c, server := s })).2.1 = (codeSideTable c s).2 ∧
    ((determineSideFromEnv (some { client := c, server := s })).2.1 = true ∨
     (determineSideFromEnv (some { client := c, server := s })).1
       ∈ [UniversalSide, ClientSide, ServerSide]) := by
  fin_cases hc <;> fin_cases hs <;> decide

/-- C2 witness: the amended table at the concrete cell the original claim
got wrong, client = unknown and server = unknown. -/
theorem c2_side_table_amended_witness :
    (determineSideFromEnv (some { client := "unknown", server := "unknown" })).1 =
      (codeSideTable "unknown" "unknown").1 ∧
    (determineSideFromEnv (some { client := "unknown", server := "unknown" })).2.1 =
      (codeSideTable "unknown" "unknown").2 ∧
    ((determineSideFromEnv (some { client := "unknown", server := "unknown" })).2.1 = true ∨
     (determineSideFromEnv (some { client := "unknown", server := "unknown" })).1
       ∈ [UniversalSide, ClientSide, ServerSide]) :=
  c2_side_table_amended "unknown" "unknown" (by decide) (by decide)

/-! ## Helper lemmas on the import loop -/

/-- `saveProgress` never changes the counters or the in-memory index. -/
theorem saveProgress_preserves (st : ImportState) :
    (saveProgress st).successCount = st.successCount ∧
    (saveProgress st).skippedCount = st.skippedCount ∧
    (saveProgress st).memIndex = st.memIndex := by
  unfold saveProgress
  split <;> simp

/-- An item the loop installs bumps exactly the success counter. -/
theorem processItem_install_counts (installed : List String) (st : ImportState)
    (it : ImportItem) (h : willInstall installed it = true) :
    (processItem installed st it).successCount = st.successCount + 1 ∧
    (processItem installed st it).skippedCount = st.skippedCount := by
  unfold willInstall at h
  simp only [Bool.and_eq_true, Bool.not_eq_true'] at h
  obtain ⟨⟨⟨h1, h2⟩, h3⟩, h4⟩ := h
  simp only [processItem, h1, h2, h3, h4, Bool.not_true, Bool.not_false, Bool.false_eq_true,
    if_false, if_true]
  split
  · exact ⟨by rw [(saveProgress_preserves _).1], by rw [(saveProgress_preserves _).2.1]⟩
  · exact ⟨rfl, rfl⟩

/-- An item whose project is already installed bumps exactly the skip
counter. -/
theorem processItem_skip (installed : List String) (st : ImportState) (it : ImportItem)
    (h1 : it.hasFileRef = true) (h2 : installed.contains it.projectID = true) :
    processItem installed st it = { st with skippedCount := st.skippedCount + 1 } := by
  unfold processItem
  rw [h1, h2]
  simp

/-- An item whose project fetch fails leaves the state unchanged. -/
theorem processItem_fetch_fail (installed : List String) (st : ImportState) (it : ImportItem)
    (h1 : it.hasFileRef = true) (h2 : installed.contains it.projectID = false)
    (h3 : it.fetchOK = false) :
    processItem installed st it = st := by
  unfold processItem
  rw [h1, h2, h3]
  simp

/-! ## C5: rate-limited project fetch -/

/-- Stepping rule of the retry loop: a successful call returns at once. -/
theorem rateLimitAttempts_step_ok (oracle : Nat → FetchResult)
    (fuel calls slept : Nat) (p : MrProject) (h : oracle calls = FetchResult.ok p) :
    rateLimitAttempts oracle (fuel + 1) calls slept = (FetchResult.ok p, calls + 1, slept) := by
  unfold rateLimitAttempts
  rw [h]

/-- Stepping rule of the retry loop: a rate-limit error with an iteration
to spare sleeps 60 seconds and retries. -/
theorem rateLimitAttempts_step_retry (oracle : Nat → FetchResult)
    (fuel calls slept : Nat) (msg : String)
    (h : oracle calls = FetchResult.err msg)
    (hr : containsAny msg rateLimitIndicators = true) :
    rateLimitAttempts oracle (fuel + 2) calls slept =
      rateLimitAttempts oracle (fuel + 1) (calls + 1) (slept + 60) := by
  conv_lhs => unfold rateLimitAttempts
  rw [h]
  simp only [hr, Bool.true_and, decide_eq_true_eq]
  rw [if_pos (Nat.zero_lt_succ fuel)]

/-- Stepping rule of the retry loop: a non-rate-limit error is returned at
once. -/
theorem rateLimitAttempts_step_no_retry (oracle : Nat → FetchResult)
    (fuel calls slept : Nat) (msg : String)
    (h : oracle calls = FetchResult.err msg)
    (hr : containsAny msg rateLimitIndicators = false) :
    rateLimitAttempts oracle (fuel + 1) calls slept = (FetchResult.err msg, calls + 1, slept) := by
  unfold rateLimitAttempts
  rw [h]
  simp [hr]

/-- Stepping rule of the retry loop: on the last iteration any error is
returned. -/
theorem rateLimitAttempts_step_last (oracle : Nat → FetchResult)
    (calls slept : Nat) (msg : String) (h : oracle calls = FetchResult.err msg) :
    rateLimitAttempts oracle 1 calls slept = (FetchResult.err msg, calls + 1, slept) := by
  unfold rateLimitAttempts
  rw [h]
  simp

/-- The retry loop makes at most `fuel` further calls. -/
theorem rateLimitAttempts_calls_le (oracle : Nat → FetchResult) :
    ∀ (fuel calls slept : Nat),
      (rateLimitAttempts oracle fuel calls slept).2.1 ≤ calls + fuel := by
  intro fuel
  induction fuel with
  | zero => intro calls slept; simp [rateLimitAttempts]
  | succ n ih =>
    intro calls slept
    unfold rateLimitAttempts
    cases h : oracle calls with
    | ok p => simp
    | err msg =>
      simp only
      split
      · exact le_trans (ih (calls + 1) (slept + 60)) (by omega)
      · simp

/-- C5: a project-detail fetch is retried only on a rate-limit-indicating
error message, up to 3 attempts total with a fixed 60-second sleep between
attempts (two sleeps, 120 seconds, when all three attempts are rate
limited); any other error is returned after a single call with no sleep;
and in the import loop a failed fetch leaves the artifact uncounted (it is
neither installed nor skipped, so it lands in the failed tally) while the
batch continues with the remaining items. -/
theorem c5_rate_limit_retry (oracle : Nat → FetchResult) :
    ((getProjectWithRateLimit oracle).2.1 ≤ 3) ∧
    (∀ msg, oracle 0 = FetchResult.err msg →
       containsAny msg rateLimitIndicators = false →
       getProjectWithRateLimit oracle = (FetchResult.err msg, 1, 0)) ∧
    (∀ m0 m1 m2, oracle 0 = FetchResult.err m0 → oracle 1 = FetchResult.err m1 →
       oracle 2 = FetchResult.err m2 →
       containsAny m0 rateLimitIndicators = true →
       containsAny m1 rateLimitIndicators = true →
       containsAny m2 rateLimitIndicators = true →
       getProjectWithRateLimit oracle = (FetchResult.err m2, 3, 120)) ∧
    (∀ (installed : List String) (st : ImportState) (it : ImportItem)
       (rest : List ImportItem),
       it.hasFileRef = true → installed.contains it.projectID = false → it.fetchOK = false →
       runImportLoop installed st (it :: rest) = runImportLoop installed st rest) := by
  refine ⟨?_, ?_, ?_, ?_⟩
  · exact rateLimitAttempts_calls_le oracle 3 0 0
  · intro msg h0 hrl
    exact rateLimitAttempts_step_no_retry oracle 2 0 0 msg h0 hrl
  · intro m0 m1 m2 h0 h1 h2 r0 r1 r2
    calc getProjectWithRateLimit oracle
        = rateLimitAttempts oracle 2 1 60 :=
          rateLimitAttempts_step_retry oracle 1 0 0 m0 h0 r0
      _ = rateLimitAttempts oracle 1 2 120 :=
          rateLimitAttempts_step_retry oracle 0 1 60 m1 h1 r1
      _ = (FetchResult.err m2, 3, 120) :=
          rateLimitAttempts_step_last oracle 2 120 m2 h2
  · intro installed st it rest h1 h2 h3
    show (it :: rest).foldl (processItem installed) st = rest.foldl (processItem installed) st
    rw [List.foldl_cons, processItem_fetch_fail installed st it h1 h2 h3]

/-- C5 witness: a non-rate-limit error is surfaced after exactly one call
with no sleep. -/
theorem c5_rate_limit_retry_witness :
    getProjectWithRateLimit (fun _ => FetchResult.err "connection refused") =
      (FetchResult.err "connection refused", 1, 0) :=
  (c5_rate_limit_retry (fun _ => FetchResult.err "connection refused")).2.1
    "connection refused" rfl (by decide)

/-! ## C3: duplicate references against an already-installed project -/

/-- C3 counterexample: with project P already installed, a batch holding
two resolved references to P skips both of them (skip counter 2) and
installs neither, in either iteration order — not "exactly one processed
and one skipped" as claimed. -/
theorem c3_counterexample :
    (runImportLoop ["P"] (initImportState []) [dupRefA, dupRefB]).successCount = 0 ∧
    (runImportLoop ["P"] (initImportState []) [dupRefA, dupRefB]).skippedCount = 2 ∧
    (runImportLoop ["P"] (initImportState []) [dupRefB, dupRefA]).successCount = 0 ∧
    (runImportLoop ["P"] (initImportState []) [dupRefB, dupRefA]).skippedCount = 2 := by
  decide

/-- C3 amended: when two resolved version references share a project ID
that is already present in the installed set, the loop skips both of them
— each is counted in the skip counter and neither is installed —
regardless of the iteration order over the batch. -/
theorem c3_duplicate_skip_amended (a b : ImportItem) (installed : List String)
    (st : ImportState) (l : List ImportItem)
    (hpid : a.projectID = b.projectID)
    (hin : installed.contains a.projectID = true)
    (ha : a.hasFileRef = true) (hb : b.hasFileRef = true)
    (hl : l = [a, b] ∨ l = [b, a]) :
    runImportLoop installed st l = { st with skippedCount := st.skippedCount + 2 } := by
  have hinb : installed.contains b.projectID = true := hpid ▸ hin
  rcases hl with h | h <;> subst h <;>
    simp only [runImportLoop, List.foldl_cons, List.foldl_nil] <;>
    rw [processItem_skip installed st _ (by assumption) (by assumption),
        processItem_skip installed _ _ (by assumption) (by assumption)]

/-- C3 witness: the amended behavior at the concrete duplicate pair. -/
theorem c3_duplicate_skip_amended_witness :
    runImportLoop ["P"] (initImportState []) [dupRefA, dupRefB] =
      { initImportState [] with
        skippedCount := (initImportState []).skippedCount + 2 } :=
  c3_duplicate_skip_amended dupRefA dupRefB ["P"] (initImportState []) [dupRefA, dupRefB]
    rfl (by decide) rfl rfl (Or.inl rfl)

/-! ## C10: no intra-batch de-duplication against fresh projects -/

/-- C10: the installed-project set is computed once before the loop and
never updated, so two resolved references sharing a project ID that is
not in that set are both installed and neither is counted as skipped,
regardless of the iteration order over the batch. -/
theorem c10_no_intra_batch_dedup (a b : ImportItem) (installed : List String)
    (st : ImportState) (l : List ImportItem)
    (hpid : a.projectID = b.projectID)
    (hnotin : installed.contains a.projectID = false)
    (ha1 : a.hasFileRef = true) (hb1 : b.hasFileRef = true)
    (ha2 : a.fetchOK = true) (hb2 : b.fetchOK = true)
    (ha3 : a.installOK = true) (hb3 : b.installOK = true)
    (hl : l = [a, b] ∨ l = [b, a]) :
    (runImportLoop installed st l).successCount = st.successCount + 2 ∧
    (runImportLoop installed st l).skippedCount = st.skippedCount := by
  have hnb : installed.contains b.projectID = false := hpid ▸ hnotin
  have hwa : willInstall installed a = true := by
    unfold willInstall; rw [ha1, hnotin, ha2, ha3]; rfl
  have hwb : willInstall installed b = true := by
    unfold willInstall; rw [hb1, hnb, hb2, hb3]; rfl
  rcases hl with h | h <;> subst h <;>
    simp only [runImportLoop, List.foldl_cons, List.foldl_nil]
  · obtain ⟨s1, k1⟩ := processItem_install_counts installed st a hwa
    obtain ⟨s2, k2⟩ := processItem_install_counts installed (processItem installed st a) b hwb
    omega
  · obtain ⟨s1, k1⟩ := processItem_install_counts installed st b hwb
    obtain ⟨s2, k2⟩ := processItem_install_counts installed (processItem installed st b) a hwa
    omega

/-- C10 witness: the concrete duplicate pair against an empty installed
set is installed twice with no skips. -/
theorem c10_no_intra_batch_dedup_witness :
    (runImportLoop [] (initImportState []) [dupRefA, dupRefB]).successCount =
      (initImportState []).successCount + 2 ∧
    (runImportLoop [] (initImportState []) [dupRefA, dupRefB]).skippedCount =
      (initImportState []).skippedCount :=
  c10_no_intra_batch_dedup dupRefA dupRefB [] (initImportState []) [dupRefA, dupRefB]
    rfl rfl rfl rfl rfl rfl rfl rfl (Or.inl rfl)

/-! ## C6: option-block normalization in the modify command -/

/-- C6 counterexample: a modify invocation that only changes the side
writes the record while leaving a pre-existing all-default Option block in
place — the written record still carries
`optional = false, description = "", default = false` and serializes the
block as present, because the removal check only runs when an optional
flag was touched. -/
theorem c6_counterexample :
    modifyModProperties staleOptionMod sideOnlyFlags =
      ModifyResult.written { staleOptionMod with side := "client" } ∧
    ({ staleOptionMod with side := "client" } : Mod).option =
      some { optional := false, description := "", defaultEnabled := false } ∧
    writtenRecordHasOptionBlock { staleOptionMod with side := "client" } = true := by
  decide

/-- When an optional flag was touched, the optional block application
never leaves an all-default Option present. -/
theorem applyOptionalFlags_no_default (m : Mod) (f : ModifyFlags) (c : Bool)
    (h : f.optional.isSome ∨ f.optionalDescription.isSome ∨ f.optionalDefault.isSome) :
    (applyOptionalFlags m f c).1.option ≠
      some { optional := false, description := "", defaultEnabled := false } := by
  have hb : (f.optional.isSome || f.optionalDescription.isSome || f.optionalDefault.isSome)
      = true := by
    rcases h with h | h | h <;> simp [h]
  unfold applyOptionalFlags
  rw [hb]
  simp only [if_true]
  split
  · simp
  · next hguard =>
    simp only [ne_eq, Option.some.injEq]
    intro he
    rw [he] at hguard
    simp at hguard

/-- C6 amended: after a modify operation that touches any of the optional
flags and writes the record, the written record never carries an
all-default Option block — when the three fields would all be default the
block is removed and (by the `omitempty` nil-pointer encoding) serializes
as absent. -/
theorem c6_option_normalization_amended (m : Mod) (f : ModifyFlags) (m2 : Mod)
    (hTouch : f.optional.isSome ∨ f.optionalDescription.isSome ∨ f.optionalDefault.isSome)
    (hRun : modifyModProperties m f = ModifyResult.written m2) :
    m2.option ≠ some { optional := false, description := "", defaultEnabled := false } ∧
    (m2.option = none → writtenRecordHasOptionBlock m2 = false) := by
  unfold modifyModProperties at hRun
  split at hRun
  · exact absurd hRun (by simp)
  · next m1 c1 heq1 =>
    split at hRun
    · exact absurd hRun (by simp)
    · next m2x c2 heq2 =>
      split at hRun
      next m3 c3 heq3 =>
        split at hRun
        next m4 c4 heq4 =>
          split at hRun
          · cases hRun
            constructor
            · have hnd := applyOptionalFlags_no_default m3 f c3 hTouch
              rw [heq4] at hnd
              exact hnd
            · intro hnone
              unfold writtenRecordHasOptionBlock
              rw [hnone]
              rfl
          · exact absurd hRun (by simp)

/-- C6 witness: clearing the optional flag on a record whose block was
present leaves no all-default option block in the written record. -/
theorem c6_option_normalization_amended_witness :
    staleOptionModNormalized.option ≠
      some { optional := false, description := "", defaultEnabled := false } ∧
    (staleOptionModNormalized.option = none →
      writtenRecordHasOptionBlock staleOptionModNormalized = false) :=
  c6_option_normalization_amended
    { staleOptionMod with
      option := some { optional := true, description := "", defaultEnabled := false } }
    { side := none, disabledClientPlatforms := none, pin := none,
      optional := some false, optionalDescription := none, optionalDefault := none }
    staleOptionModNormalized (Or.inl rfl) (by decide)

/-! ## C7: the diff source tally -/

/-- C7 counterexample: a record with no update-source entries at all but
an empty download URL is tallied nowhere — not as "bare URL" as the
claimed iff requires. -/
theorem c7_counterexample :
    bareRecordNoURL.update = [] ∧
    classifyModSource bareRecordNoURL ≠ some ModSource.urlSrc := by
  decide

/-- C7 amended: among loaded records, one counts as "bare URL" iff it is
tallied to neither catalog (no modrinth entry with a non-empty project ID,
no curseforge entry), has a non-empty download URL, and every update key
is one of the two recognized catalogs; it counts as "other source" iff it
is likewise untallied with a non-empty URL and some update key outside the
two catalogs; with an empty URL such an untallied record is counted
nowhere at all. -/
theorem c7_source_tally_amended (m : Mod) :
    (classifyModSource m = some ModSource.urlSrc ↔
      (modrinthTallied m = false ∧ (m.update.lookup "curseforge").isSome = false ∧
       m.download.url ≠ "" ∧ ∀ kv ∈ m.update, kv.1 = "modrinth" ∨ kv.1 = "curseforge")) ∧
    (classifyModSource m = some ModSource.otherSrc ↔
      (modrinthTallied m = false ∧ (m.update.lookup "curseforge").isSome = false ∧
       m.download.url ≠ "" ∧ ∃ kv ∈ m.update, kv.1 ≠ "modrinth" ∧ kv.1 ≠ "curseforge")) ∧
    (classifyModSource m = none ↔
      (modrinthTallied m = false ∧ (m.update.lookup "curseforge").isSome = false ∧
       m.download.url = "")) := by
  by_cases hmr : modrinthTallied m = true
  · have hclass : classifyModSource m = some ModSource.modrinthSrc := by
      unfold classifyModSource
      simp [hmr]
    refine ⟨⟨?_, ?_⟩, ⟨?_, ?_⟩, ⟨?_, ?_⟩⟩
    · intro h; rw [hclass] at h; exact absurd h (by decide)
    · rintro ⟨h1, -⟩; rw [hmr] at h1; cases h1
    · intro h; rw [hclass] at h; exact absurd h (by decide)
    · rintro ⟨h1, -⟩; rw [hmr] at h1; cases h1
    · intro h; rw [hclass] at h; exact absurd h (by decide)
    · rintro ⟨h1, -⟩; rw [hmr] at h1; cases h1
  · rw [Bool.not_eq_true] at hmr
    by_cases hcf : (m.update.lookup "curseforge").isSome = true
    · have hclass : classifyModSource m = some ModSource.curseforgeSrc := by
        unfold classifyModSource
        simp [hmr, hcf]
      refine ⟨⟨?_, ?_⟩, ⟨?_, ?_⟩, ⟨?_, ?_⟩⟩
      · intro h; rw [hclass] at h; exact absurd h (by decide)
      · rintro ⟨-, h2, -⟩; rw [hcf] at h2; cases h2
      · intro h; rw [hclass] at h; exact absurd h (by decide)
      · rintro ⟨-, h2, -⟩; rw [hcf] at h2; cases h2
      · intro h; rw [hclass] at h; exact absurd h (by decide)
      · rintro ⟨-, h2, -⟩; rw [hcf] at h2; cases h2
    · rw [Bool.not_eq_true] at hcf
      by_cases hurl : m.download.url = ""
      · have hclass : classifyModSource m = none := by
          unfold classifyModSource
          simp [hmr, hcf, hurl]
        refine ⟨⟨?_, ?_⟩, ⟨?_, ?_⟩, ⟨?_, ?_⟩⟩
        · intro h; rw [hclass] at h; exact absurd h (by decide)
        · rintro ⟨-, -, hu, -⟩; exact absurd hurl hu
        · intro h; rw [hclass] at h; exact absurd h (by decide)
        · rintro ⟨-, -, hu, -⟩; exact absurd hurl hu
        · intro _; exact ⟨hmr, hcf, hurl⟩
        · intro _; exact hclass
      · have hurlb : (m.download.url != "") = true := by
          simp [bne_iff_ne, hurl]
        by_cases hoth :
            (m.update.any (fun kv => kv.1 != "modrinth" && kv.1 != "curseforge")) = true
        · have hclass : classifyModSource m = some ModSource.otherSrc := by
            unfold classifyModSource
            simp [hmr, hcf, hurlb, hoth]
          obtain ⟨kv, hkv, hk⟩ := List.any_eq_true.mp hoth
          simp only [Bool.and_eq_true, bne_iff_ne] at hk
          refine ⟨⟨?_, ?_⟩, ⟨?_, ?_⟩, ⟨?_, ?_⟩⟩
          · intro h; rw [hclass] at h; exact absurd h (by decide)
          · rintro ⟨-, -, -, hall⟩
            rcases hall kv hkv with h | h
            · exact absurd h hk.1
            · exact absurd h hk.2
          · intro _; exact ⟨hmr, hcf, hurl, kv, hkv, hk⟩
          · intro _; exact hclass
          · intro h; rw [hclass] at h; exact absurd h (by decide)
          · rintro ⟨-, -, hu⟩; exact absurd hu hurl
        · rw [Bool.not_eq_true] at hoth
          have hclass : classifyModSource m = some ModSource.urlSrc := by
            unfold classifyModSource
            simp [hmr, hcf, hurlb, hoth]
          have hall : ∀ kv ∈ m.update, kv.1 = "modrinth" ∨ kv.1 = "curseforge" := by
            intro kv hkv
            by_contra hcon
            push_neg at hcon
            have hx : m.update.any (fun kv => kv.1 != "modrinth" && kv.1 != "curseforge")
                = true :=
              List.any_eq_true.mpr ⟨kv, hkv, by simp [bne_iff_ne, hcon.1, hcon.2]⟩
            rw [hoth] at hx
            cases hx
          refine ⟨⟨?_, ?_⟩, ⟨?_, ?_⟩, ⟨?_, ?_⟩⟩
          · intro _; exact ⟨hmr, hcf, hurl, hall⟩
          · intro _; exact hclass
          · intro h; rw [hclass] at h; exact absurd h (by decide)
          · rintro ⟨-, -, -, kv2, hkv2, hk2⟩
            rcases hall kv2 hkv2 with h | h
            · exact absurd h hk2.1
            · exact absurd h hk2.2
          · intro h; rw [hclass] at h; exact absurd h (by decide)
          · rintro ⟨-, -, hu⟩; exact absurd hu hurl

/-! ## C1: checkpointing of the import loop -/

/-- Refreshing one more entry extends the rebuilt index by one fold step. -/
theorem indexAfter_append (i0 : List IndexEntry) (es : List IndexEntry) (e : IndexEntry) :
    indexAfter i0 (es ++ [e]) = refreshIndexEntry (indexAfter i0 es) e := by
  unfold indexAfter
  rw [List.foldl_append]
  rfl

/-- The loop invariant is preserved by processing one more item. -/
theorem importLoopInv_step (installed : List String) (i0 : List IndexEntry)
    (p : List ImportItem) (st : ImportState) (it : ImportItem)
    (h : importLoopInv installed i0 p st) :
    importLoopInv installed i0 (p ++ [it]) (processItem installed st it) := by
  obtain ⟨hmem, hsucc, hskip, hpers, hwc⟩ := h
  have hent : ∀ hw : Bool, willInstall installed it = hw →
      installedEntries installed (p ++ [it]) =
        installedEntries installed p ++ (if hw then [it.entry] else []) := by
    intro hw hweq
    unfold installedEntries
    rw [List.filter_append, List.map_append]
    congr 1
    cases hw
    · simp [List.filter_cons, hweq]
    · simp [List.filter_cons, hweq]
  have hskipApp : ∀ hw : Bool, willSkipDup installed it = hw →
      (p ++ [it]).filter (willSkipDup installed) =
        p.filter (willSkipDup installed) ++ (if hw then [it] else []) := by
    intro hw hweq
    rw [List.filter_append]
    congr 1
    cases hw
    · simp [List.filter_cons, hweq]
    · simp [List.filter_cons, hweq]
  by_cases hfr : it.hasFileRef = true
  case neg =>
    rw [Bool.not_eq_true] at hfr
    have hw1 := hent false (by unfold willInstall; rw [hfr]; simp)
    have hw2 := hskipApp false (by unfold willSkipDup; rw [hfr]; simp)
    have hpi : processItem installed st it = st := by
      simp [processItem, hfr]
    rw [hpi]
    exact ⟨by simp [hw1, hmem], by simp [hw1, hsucc], by simp [hw2, hskip],
      by simp [hw1, hpers], by simp [hw1, hwc]⟩
  case pos =>
  by_cases hcont : installed.contains it.projectID = true
  case pos =>
    have hw1 := hent false (by unfold willInstall; rw [hcont]; simp)
    have hw2 := hskipApp true (by unfold willSkipDup; rw [hfr, hcont]; rfl)
    have hpi := processItem_skip installed st it hfr hcont
    rw [hpi]
    refine ⟨by simp [hw1, hmem], by simp [hw1, hsucc], ?_, by simp [hw1, hpers],
      by simp [hw1, hwc]⟩
    show st.skippedCount + 1 = ((p ++ [it]).filter (willSkipDup installed)).length
    rw [hw2]
    simp [hskip]
  case neg =>
  rw [Bool.not_eq_true] at hcont
  by_cases hfe : it.fetchOK = true
  case neg =>
    rw [Bool.not_eq_true] at hfe
    have hw1 := hent false (by unfold willInstall; rw [hfe]; simp)
    have hw2 := hskipApp false (by unfold willSkipDup; rw [hcont]; simp)
    have hpi := processItem_fetch_fail installed st it hfr hcont hfe
    rw [hpi]
    exact ⟨by simp [hw1, hmem], by simp [hw1, hsucc], by simp [hw2, hskip],
      by simp [hw1, hpers], by simp [hw1, hwc]⟩
  case pos =>
  by_cases hin : it.installOK = true
  case neg =>
    rw [Bool.not_eq_true] at hin
    have hw1 := hent false (by unfold willInstall; rw [hin]; simp)
    have hw2 := hskipApp false (by unfold willSkipDup; rw [hcont]; simp)
    have hpi : processItem installed st it = st := by
      simp only [processItem, hfr, hcont, hfe, hin, Bool.not_true, Bool.not_false,
        Bool.false_eq_true, eq_self_iff_true, if_false, if_true]
    rw [hpi]
    exact ⟨by simp [hw1, hmem], by simp [hw1, hsucc], by simp [hw2, hskip],
      by simp [hw1, hpers], by simp [hw1, hwc]⟩
  case pos =>
  have hw1 := hent true (by unfold willInstall; rw [hfr, hcont, hfe, hin]; rfl)
  have hw2 := hskipApp false (by unfold willSkipDup; rw [hcont]; simp)
  have hlen : (installedEntries installed (p ++ [it])).length =
      (installedEntries installed p).length + 1 := by
    rw [hw1]
    simp
  by_cases hdiv : (st.successCount + 1) % 10 = 0
  case pos =>
    have hpi : processItem installed st it =
        { st with memIndex := refreshIndexEntry st.memIndex it.entry,
                  successCount := st.successCount + 1,
                  persisted := refreshIndexEntry st.memIndex it.entry,
                  writeCount := st.writeCount + 1 } := by
      simp only [processItem, hfr, hcont, hfe, hin, Bool.not_true, Bool.false_eq_true,
        if_false, if_true]
      rw [if_pos (by simp [hdiv])]
      unfold saveProgress
      rw [if_pos (Nat.succ_pos _)]
    rw [hpi]
    refine ⟨?_, ?_, ?_, ?_, ?_⟩
    · show refreshIndexEntry st.memIndex it.entry =
        indexAfter i0 (installedEntries installed (p ++ [it]))
      rw [hw1, if_pos rfl, indexAfter_append, hmem]
    · show st.successCount + 1 = (installedEntries installed (p ++ [it])).length
      rw [hlen, hsucc]
    · show st.skippedCount = ((p ++ [it]).filter (willSkipDup installed)).length
      rw [hw2]
      simp [hskip]
    · show refreshIndexEntry st.memIndex it.entry =
        indexAfter i0 ((installedEntries installed (p ++ [it])).take
          (10 * ((installedEntries installed (p ++ [it])).length / 10)))
      have hNat : 10 * ((installedEntries installed (p ++ [it])).length / 10) =
          (installedEntries installed (p ++ [it])).length := by
        rw [hlen, ← hsucc]
        omega
      rw [hNat, List.take_length, hw1, if_pos rfl, indexAfter_append, hmem]
    · show st.writeCount + 1 = (installedEntries installed (p ++ [it])).length / 10
      rw [hlen, ← hsucc, hwc, hsucc, ← hlen]
      rw [hlen, ← hsucc]
      omega
  case neg =>
    have hpi : processItem installed st it =
        { st with memIndex := refreshIndexEntry st.memIndex it.entry,
                  successCount := st.successCount + 1 } := by
      simp only [processItem, hfr, hcont, hfe, hin, Bool.not_true, Bool.false_eq_true,
        if_false, if_true]
      rw [if_neg (by simpa using hdiv)]
    rw [hpi]
    refine ⟨?_, ?_, ?_, ?_, ?_⟩
    · show refreshIndexEntry st.memIndex it.entry =
        indexAfter i0 (installedEntries installed (p ++ [it]))
      rw [hw1, if_pos rfl, indexAfter_append, hmem]
    · show st.successCount + 1 = (installedEntries installed (p ++ [it])).length
      rw [hlen, hsucc]
    · show st.skippedCount = ((p ++ [it]).filter (willSkipDup installed)).length
      rw [hw2]
      simp [hskip]
    · show st.persisted =
        indexAfter i0 ((installedEntries installed (p ++ [it])).take
          (10 * ((installedEntries installed (p ++ [it])).length / 10)))
      have hdivEq : (installedEntries installed (p ++ [it])).length / 10 =
          (installedEntries installed p).length / 10 := by
        rw [hlen, ← hsucc]
        omega
      have hle : 10 * ((installedEntries installed p).length / 10) ≤
          (installedEntries installed p).length := by
        omega
      rw [hdivEq, hw1, if_pos rfl, List.take_append_of_le_length hle, hpers]
    · show st.writeCount = (installedEntries installed (p ++ [it])).length / 10
      rw [hlen, ← hsucc, hwc, hsucc]
      omega

/-- The loop invariant holds at loop entry. -/
theorem importLoopInv_init (installed : List String) (i0 : List IndexEntry) :
    importLoopInv installed i0 [] (initImportState i0) := by
  unfold importLoopInv installedEntries initImportState indexAfter
  simp

/-- The loop invariant is preserved by running the rest of the batch. -/
theorem importLoopInv_run (installed : List String) (i0 : List IndexEntry) :
    ∀ (items p : List ImportItem) (st : ImportState),
      importLoopInv installed i0 p st →
      importLoopInv installed i0 (p ++ items) (runImportLoop installed st items) := by
  intro items
  induction items with
  | nil => intro p st h; simpa [runImportLoop] using h
  | cons it rest ih =>
    intro p st h
    have h3 := ih (p ++ [it]) (processItem installed st it)
      (importLoopInv_step installed i0 p st it h)
    rw [List.append_assoc, List.singleton_append] at h3
    simpa [runImportLoop, List.foldl_cons] using h3

/-- C1 counterexample: a run with one item whose install fails, then a
signal, exits the process without ever persisting the Index — the
signal-path save is guarded by `successCount > 0`, so persistence before
process exit is not unconditional as the claim states. -/
theorem c1_counterexample :
    (importRun [] [failingItem] [] 1 ExitKind.signaled).writeCount = 0 ∧
    (importRun [] [failingItem] [] 1 ExitKind.signaled).successCount = 0 := by
  decide

/-- C1 amended: during the loop the persisted Index is exactly the state
after the last multiple-of-10 checkpoint (a `saveProgress` call per 10
successful installs); at exit, the normal path always persists everything,
while the signal and panic paths persist everything only when at least one
install succeeded; consequently for a run interrupted after N successful
installs the persisted Index is the result of applying the first K
installs for some K between 10·⌊N/10⌋ and N — never fewer than the last
multiple-of-10 checkpoint. -/
theorem c1_checkpoint_amended (installed : List String) (items : List ImportItem)
    (i0 : List IndexEntry) (k : Nat) (kind : ExitKind) :
    (runImportLoop installed (initImportState i0) (items.take k)).persisted =
      indexAfter i0 ((installedEntries installed (items.take k)).take
        (10 * ((installedEntries installed (items.take k)).length / 10))) ∧
    (runImportLoop installed (initImportState i0) (items.take k)).writeCount =
      (installedEntries installed (items.take k)).length / 10 ∧
    (kind = ExitKind.normal →
      (importRun installed items i0 k kind).persisted =
        indexAfter i0 (installedEntries installed (items.take k))) ∧
    (0 < (installedEntries installed (items.take k)).length →
      (importRun installed items i0 k kind).persisted =
        indexAfter i0 (installedEntries installed (items.take k))) ∧
    (∃ K, 10 * ((installedEntries installed (items.take k)).length / 10) ≤ K ∧
      K ≤ (installedEntries installed (items.take k)).length ∧
      (importRun installed items i0 k kind).persisted =
        indexAfter i0 ((installedEntries installed (items.take k)).take K)) := by
  have hinv := importLoopInv_run installed i0 (items.take k) [] (initImportState i0)
    (importLoopInv_init installed i0)
  rw [List.nil_append] at hinv
  obtain ⟨hmem, hsucc, hskip, hpers, hwc⟩ := hinv
  refine ⟨hpers, hwc, ?_, ?_, ?_⟩
  · intro hk
    subst hk
    show ({ runImportLoop installed (initImportState i0) (items.take k) with
        persisted := (runImportLoop installed (initImportState i0) (items.take k)).memIndex,
        writeCount :=
          (runImportLoop installed (initImportState i0) (items.take k)).writeCount
            + 1 } : ImportState).persisted = _
    rw [hmem]
  · intro hN
    cases kind with
    | normal => rw [show (importRun installed items i0 k ExitKind.normal).persisted =
        (runImportLoop installed (initImportState i0) (items.take k)).memIndex from rfl, hmem]
    | signaled =>
      show (saveProgress (runImportLoop installed (initImportState i0) (items.take k))).persisted
        = _
      unfold saveProgress
      rw [if_pos (by rw [hsucc]; exact hN)]
      exact hmem
    | panicked =>
      show (saveProgress (runImportLoop installed (initImportState i0) (items.take k))).persisted
        = _
      unfold saveProgress
      rw [if_pos (by rw [hsucc]; exact hN)]
      exact hmem
  · by_cases hN : 0 < (installedEntries installed (items.take k)).length
    · refine ⟨(installedEntries installed (items.take k)).length, by omega, le_refl _, ?_⟩
      rw [List.take_length]
      cases kind with
      | normal =>
        rw [show (importRun installed items i0 k ExitKind.normal).persisted =
          (runImportLoop installed (initImportState i0) (items.take k)).memIndex from rfl, hmem]
      | signaled =>
        show (saveProgress (runImportLoop installed (initImportState i0)
          (items.take k))).persisted = _
        unfold saveProgress
        rw [if_pos (by rw [hsucc]; exact hN)]
        exact hmem
      | panicked =>
        show (saveProgress (runImportLoop installed (initImportState i0)
          (items.take k))).persisted = _
        unfold saveProgress
        rw [if_pos (by rw [hsucc]; exact hN)]
        exact hmem
    · have hzero : (installedEntries installed (items.take k)).length = 0 := by omega
      refine ⟨0, by omega, by omega, ?_⟩
      cases kind with
      | normal =>
        rw [show (importRun installed items i0 k ExitKind.normal).persisted =
          (runImportLoop installed (initImportState i0) (items.take k)).memIndex from rfl, hmem]
        have hnil : installedEntries installed (items.take k) = [] :=
          List.length_eq_zero.mp hzero
        rw [hnil]
        rfl
      | signaled =>
        show (saveProgress (runImportLoop installed (initImportState i0)
          (items.take k))).persisted = _
        unfold saveProgress
        rw [if_neg (by rw [hsucc]; omega)]
        rw [hpers, hzero]
      | panicked =>
        show (saveProgress (runImportLoop installed (initImportState i0)
          (items.take k))).persisted = _
        unfold saveProgress
        rw [if_neg (by rw [hsucc]; omega)]
        rw [hpers, hzero]

/-- C1 witness: an uninterrupted normal run persists every installed
entry. -/
theorem c1_checkpoint_amended_witness :
    (importRun [] [failingItem, dupRefA] [] 2 ExitKind.normal).persisted =
      indexAfter [] (installedEntries [] ([failingItem, dupRefA].take 2)) :=
  (c1_checkpoint_amended [] [failingItem, dupRefA] [] 2 ExitKind.normal).2.2.1 rfl

/-! ## C4: determinism and ordering of the diff output -/

/-- Inserting into a list permutes to consing. -/
theorem goInsert_perm (a : ModInfo) (l : List ModInfo) :
    List.Perm (goInsert a l) (a :: l) := by
  induction l with
  | nil => exact List.Perm.refl _
  | cons b t ih =>
    unfold goInsert
    split
    · exact List.Perm.refl _
    · exact List.Perm.trans (List.Perm.cons b ih) (List.Perm.swap a b t)

/-- Inserting into a name-sorted list keeps it name-sorted. -/
theorem goInsert_sorted (a : ModInfo) (l : List ModInfo) (h : l.Pairwise nameLe) :
    (goInsert a l).Pairwise nameLe := by
  induction l with
  | nil => simp [goInsert, List.pairwise_cons]
  | cons b t ih =>
    rw [List.pairwise_cons] at h
    obtain ⟨hb, ht⟩ := h
    unfold goInsert
    split
    · next hlt =>
      have hab : nameLe a b :=
        le_of_lt (String.lt_iff_toList_lt.mpr (of_decide_eq_true hlt))
      rw [List.pairwise_cons]
      refine ⟨?_, ?_⟩
      · intro x hx
        rcases List.mem_cons.mp hx with hx | hx
        · exact hx ▸ hab
        · exact le_trans hab (hb x hx)
      · rw [List.pairwise_cons]
        exact ⟨hb, ht⟩
    · next hlt =>
      have hba : nameLe b a := by
        have hnot := of_decide_eq_false (Bool.not_eq_true _ ▸ hlt)
        exact le_of_not_lt (fun hc => hnot (String.lt_iff_toList_lt.mp hc))
      rw [List.pairwise_cons]
      refine ⟨?_, ih ht⟩
      intro x hx
      have hx2 : x ∈ a :: t := (goInsert_perm a t).mem_iff.mp hx
      rcases List.mem_cons.mp hx2 with hx2 | hx2
      · exact hx2 ▸ hba
      · exact hb x hx2

/-- The Go sort returns a permutation of its input. -/
theorem goSortByName_perm (l : List ModInfo) : List.Perm (goSortByName l) l := by
  have haux : ∀ (l acc : List ModInfo),
      List.Perm (l.foldl (fun acc x => goInsert x acc) acc) (l ++ acc) := by
    intro l
    induction l with
    | nil => intro acc; exact List.Perm.refl _
    | cons a t ih =>
      intro acc
      rw [List.foldl_cons]
      refine List.Perm.trans (ih (goInsert a acc)) ?_
      refine List.Perm.trans (List.Perm.append_left t (goInsert_perm a acc)) ?_
      exact List.perm_middle
  have h := haux l []
  rw [List.append_nil] at h
  exact h

/-- The Go sort returns a name-sorted list. -/
theorem goSortByName_sorted (l : List ModInfo) : (goSortByName l).Pairwise nameLe := by
  have haux : ∀ (l acc : List ModInfo), acc.Pairwise nameLe →
      (l.foldl (fun acc x => goInsert x acc) acc).Pairwise nameLe := by
    intro l
    induction l with
    | nil => intro acc h; exact h
    | cons a t ih =>
      intro acc h
      rw [List.foldl_cons]
      exact ih (goInsert a acc) (goInsert_sorted a acc h)
  exact haux l [] List.Pairwise.nil

/-- Two name-sorted permutations of each other whose display names are
injective on their elements are equal. -/
theorem sorted_perm_eq_of_name_inj :
    ∀ (l1 l2 : List ModInfo), List.Perm l1 l2 →
      l1.Pairwise nameLe → l2.Pairwise nameLe →
      (∀ a ∈ l1, ∀ b ∈ l1, a.projectName = b.projectName → a = b) →
      l1 = l2 := by
  intro l1
  induction l1 with
  | nil =>
    intro l2 hp _ _ _
    exact (List.Perm.nil_eq hp).symm ▸ rfl
  | cons a t1 ih =>
    intro l2 hp hs1 hs2 hinj
    cases l2 with
    | nil => exact absurd hp.symm (by simp)
    | cons b t2 =>
      have hab : a = b := by
        have hain : a ∈ b :: t2 := hp.mem_iff.mp (List.mem_cons_self a t1)
        have hbin : b ∈ a :: t1 := hp.symm.mem_iff.mp (List.mem_cons_self b t2)
        rcases List.mem_cons.mp hain with h | hat2
        · exact h
        rcases List.mem_cons.mp hbin with h | hbt1
        · exact h.symm
        have h1 : nameLe a b := (List.pairwise_cons.mp hs1).1 b hbt1
        have h2 : nameLe b a := (List.pairwise_cons.mp hs2).1 a hat2
        exact hinj a (List.mem_cons_self a t1) b (List.mem_cons.mpr (Or.inr hbt1))
          (le_antisymm h1 h2)
      subst hab
      have hpt : List.Perm t1 t2 := List.Perm.cons_inv hp
      have ht1 : t1.Pairwise nameLe := (List.pairwise_cons.mp hs1).2
      have ht2 : t2.Pairwise nameLe := (List.pairwise_cons.mp hs2).2
      have hinjt : ∀ x ∈ t1, ∀ y ∈ t1, x.projectName = y.projectName → x = y := by
        intro x hx y hy
        exact hinj x (List.mem_cons.mpr (Or.inr hx)) y (List.mem_cons.mpr (Or.inr hy))
      rw [ih t2 hpt ht1 ht2 hinjt]

/-- With no duplicate keys, a lookup returning a value means the pair is
in the list. -/
theorem lookup_eq_some_iff_mem {β : Type} (l : List (String × β))
    (nd : (l.map Prod.fst).Nodup) (k : String) (v : β) :
    l.lookup k = some v ↔ (k, v) ∈ l := by
  induction l with
  | nil => simp [List.lookup]
  | cons kv t ih =>
    obtain ⟨k0, v0⟩ := kv
    simp only [List.map_cons, List.nodup_cons] at nd
    obtain ⟨hk0, hnd⟩ := nd
    rw [List.lookup_cons]
    by_cases hk : k = k0
    · subst hk
      simp only [beq_self_eq_true, List.mem_cons, Option.some.injEq, Prod.mk.injEq]
      constructor
      · intro hv
        exact Or.inl ⟨trivial, hv.symm⟩
      · rintro (⟨-, hv⟩ | hmem)
        · exact hv.symm
        · exact absurd (List.mem_map.mpr ⟨(k, v), hmem, rfl⟩) hk0
    · have hbeq : (k == k0) = false := by simpa using hk
      simp only [hbeq]
      rw [ih hnd]
      simp only [List.mem_cons, Prod.mk.injEq]
      constructor
      · exact Or.inr
      · rintro (⟨hkk, -⟩ | hmem)
        · exact absurd hkk hk
        · exact hmem

/-- A lookup misses exactly when the key is absent. -/
theorem lookup_eq_none_iff {β : Type} (l : List (String × β)) (k : String) :
    l.lookup k = none ↔ k ∉ l.map Prod.fst := by
  induction l with
  | nil => simp [List.lookup]
  | cons kv t ih =>
    obtain ⟨k0, v0⟩ := kv
    rw [List.lookup_cons]
    by_cases hk : k = k0
    · subst hk
      simp only [beq_self_eq_true, List.map_cons, List.mem_cons]
      simp
    · have hbeq : (k == k0) = false := by simpa using hk
      simp only [hbeq, List.map_cons, List.mem_cons]
      rw [ih]
      constructor
      · intro h hc
        rcases hc with hc | hc
        · exact hk hc
        · exact h hc
      · intro h hc
        exact h (Or.inr hc)

/-- Lookups agree across a permutation of an association list with no
duplicate keys. -/
theorem lookup_perm_eq {β : Type} (l1 l2 : List (String × β))
    (hp : List.Perm l1 l2) (nd : (l1.map Prod.fst).Nodup) (k : String) :
    l1.lookup k = l2.lookup k := by
  have nd2 : (l2.map Prod.fst).Nodup := ((hp.map Prod.fst).nodup_iff).mp nd
  cases h1 : l1.lookup k with
  | none =>
    rw [lookup_eq_none_iff] at h1
    have h2 : k ∉ l2.map Prod.fst := fun hc =>
      h1 ((hp.map Prod.fst).mem_iff.mpr hc)
    exact ((lookup_eq_none_iff l2 k).mpr h2).symm
  | some v =>
    rw [lookup_eq_some_iff_mem l1 nd k v] at h1
    exact ((lookup_eq_some_iff_mem l2 nd2 k v).mpr (hp.mem_iff.mp h1)).symm

/-- The combined entry keeps the current entry's display name. -/
theorem differentPreFn_name (mr : List (String × ModInfo)) (kv : String × ModInfo)
    (x : ModInfo) (h : differentPreFn mr kv = some x) :
    x.projectName = kv.2.projectName := by
  unfold differentPreFn at h
  cases hl : mr.lookup kv.1 with
  | none => simp [hl] at h
  | some mm =>
    simp only [hl] at h
    by_cases hv : (kv.2.versionID != mm.versionID) = true
    · rw [if_pos hv] at h
      cases h
      rfl
    · rw [if_neg hv] at h
      cases h

/-- The pre-sort `missing` lists of two iteration orders of the same two
maps are permutations of each other. -/
theorem missingPre_perm (cur1 cur2 mr1 mr2 : List (String × ModInfo))
    (hc : List.Perm cur1 cur2) (hm : List.Perm mr1 mr2)
    (hck : (cur1.map Prod.fst).Nodup) :
    List.Perm (missingPre cur1 mr1) (missingPre cur2 mr2) := by
  unfold missingPre
  have hpeq : (fun kv : String × ModInfo => (cur2.lookup kv.1).isNone) =
      (fun kv : String × ModInfo => (cur1.lookup kv.1).isNone) := by
    funext kv
    rw [lookup_perm_eq cur1 cur2 hc hck kv.1]
  rw [hpeq]
  exact (hm.filter _).map _

/-- The pre-sort `extra` lists of two iteration orders of the same two
maps are permutations of each other. -/
theorem extraPre_perm (cur1 cur2 mr1 mr2 : List (String × ModInfo))
    (hc : List.Perm cur1 cur2) (hm : List.Perm mr1 mr2)
    (hmk : (mr1.map Prod.fst).Nodup) :
    List.Perm (extraPre cur1 mr1) (extraPre cur2 mr2) := by
  unfold extraPre
  have hpeq : (fun kv : String × ModInfo => (mr2.lookup kv.1).isNone) =
      (fun kv : String × ModInfo => (mr1.lookup kv.1).isNone) := by
    funext kv
    rw [lookup_perm_eq mr1 mr2 hm hmk kv.1]
  rw [hpeq]
  exact (hc.filter _).map _

/-- The pre-sort `different` lists of two iteration orders of the same two
maps are permutations of each other. -/
theorem differentPre_perm (cur1 cur2 mr1 mr2 : List (String × ModInfo))
    (hc : List.Perm cur1 cur2) (hm : List.Perm mr1 mr2)
    (hmk : (mr1.map Prod.fst).Nodup) :
    List.Perm (differentPre cur1 mr1) (differentPre cur2 mr2) := by
  unfold differentPre
  have hgeq : differentPreFn mr2 = differentPreFn mr1 := by
    funext kv
    unfold differentPreFn
    rw [lookup_perm_eq mr1 mr2 hm hmk kv.1]
  rw [hgeq]
  exact hc.filterMap _

/-- C4 counterexample: the same current map handed to `compareMods` in two
different Go-map iteration orders — two entries of distinct projects that
share the display name "A" — yields two different `extra` lists, so two
runs of diff need not produce identical output. -/
theorem c4_counterexample :
    compareMods [("p1", dupNameMod1), ("p2", dupNameMod2)] [] ≠
      compareMods [("p2", dupNameMod2), ("p1", dupNameMod1)] [] := by
  decide

/-- C4 amended: every run's three result lists are sorted by display name
(case-sensitive lexicographic); across two runs over the same maps (any
two iteration orders) the three lists agree as multisets, and they are
identical whenever display names are injective over each map's entries —
only entries of equal display names may change relative order between
runs. -/
theorem c4_diff_deterministic_amended (cur1 cur2 mr1 mr2 : List (String × ModInfo))
    (hc : List.Perm cur1 cur2) (hm : List.Perm mr1 mr2)
    (hck : (cur1.map Prod.fst).Nodup) (hmk : (mr1.map Prod.fst).Nodup) :
    ((compareMods cur1 mr1).1.Pairwise nameLe ∧
     (compareMods cur1 mr1).2.1.Pairwise nameLe ∧
     (compareMods cur1 mr1).2.2.Pairwise nameLe) ∧
    (List.Perm (compareMods cur1 mr1).1 (compareMods cur2 mr2).1 ∧
     List.Perm (compareMods cur1 mr1).2.1 (compareMods cur2 mr2).2.1 ∧
     List.Perm (compareMods cur1 mr1).2.2 (compareMods cur2 mr2).2.2) ∧
    ((∀ kv1 ∈ cur1, ∀ kv2 ∈ cur1,
        (kv1 : String × ModInfo).2.projectName = kv2.2.projectName → kv1 = kv2) →
     (∀ kv1 ∈ mr1, ∀ kv2 ∈ mr1,
        (kv1 : String × ModInfo).2.projectName = kv2.2.projectName → kv1 = kv2) →
     compareMods cur1 mr1 = compareMods cur2 mr2) := by
  have e11 : (compareMods cur1 mr1).1 = goSortByName (missingPre cur1 mr1) := rfl
  have e12 : (compareMods cur1 mr1).2.1 = goSortByName (extraPre cur1 mr1) := rfl
  have e13 : (compareMods cur1 mr1).2.2 = goSortByName (differentPre cur1 mr1) := rfl
  have e21 : (compareMods cur2 mr2).1 = goSortByName (missingPre cur2 mr2) := rfl
  have e22 : (compareMods cur2 mr2).2.1 = goSortByName (extraPre cur2 mr2) := rfl
  have e23 : (compareMods cur2 mr2).2.2 = goSortByName (differentPre cur2 mr2) := rfl
  have hp1 : List.Perm (goSortByName (missingPre cur1 mr1))
      (goSortByName (missingPre cur2 mr2)) :=
    ((goSortByName_perm _).trans (missingPre_perm cur1 cur2 mr1 mr2 hc hm hck)).trans
      (goSortByName_perm _).symm
  have hp2 : List.Perm (goSortByName (extraPre cur1 mr1))
      (goSortByName (extraPre cur2 mr2)) :=
    ((goSortByName_perm _).trans (extraPre_perm cur1 cur2 mr1 mr2 hc hm hmk)).trans
      (goSortByName_perm _).symm
  have hp3 : List.Perm (goSortByName (differentPre cur1 mr1))
      (goSortByName (differentPre cur2 mr2)) :=
    ((goSortByName_perm _).trans (differentPre_perm cur1 cur2 mr1 mr2 hc hm hmk)).trans
      (goSortByName_perm _).symm
  refine ⟨⟨?_, ?_, ?_⟩, ⟨?_, ?_, ?_⟩, ?_⟩
  · rw [e11]; exact goSortByName_sorted _
  · rw [e12]; exact goSortByName_sorted _
  · rw [e13]; exact goSortByName_sorted _
  · rw [e11, e21]; exact hp1
  · rw [e12, e22]; exact hp2
  · rw [e13, e23]; exact hp3
  · intro hinjc hinjm
    have hq1 : goSortByName (missingPre cur1 mr1) = goSortByName (missingPre cur2 mr2) := by
      refine sorted_perm_eq_of_name_inj _ _ hp1 (goSortByName_sorted _)
        (goSortByName_sorted _) ?_
      intro x hx y hy hxy
      have hx2 := (goSortByName_perm _).mem_iff.mp hx
      have hy2 := (goSortByName_perm _).mem_iff.mp hy
      unfold missingPre at hx2 hy2
      obtain ⟨kvx, hkvx, hxe⟩ := List.mem_map.mp hx2
      obtain ⟨kvy, hkvy, hye⟩ := List.mem_map.mp hy2
      have hkvx2 := (List.mem_filter.mp hkvx).1
      have hkvy2 := (List.mem_filter.mp hkvy).1
      have : kvx = kvy := hinjm kvx hkvx2 kvy hkvy2 (by rw [hxe, hye, hxy])
      rw [← hxe, ← hye, this]
    have hq2 : goSortByName (extraPre cur1 mr1) = goSortByName (extraPre cur2 mr2) := by
      refine sorted_perm_eq_of_name_inj _ _ hp2 (goSortByName_sorted _)
        (goSortByName_sorted _) ?_
      intro x hx y hy hxy
      have hx2 := (goSortByName_perm _).mem_iff.mp hx
      have hy2 := (goSortByName_perm _).mem_iff.mp hy
      unfold extraPre at hx2 hy2
      obtain ⟨kvx, hkvx, hxe⟩ := List.mem_map.mp hx2
      obtain ⟨kvy, hkvy, hye⟩ := List.mem_map.mp hy2
      have hkvx2 := (List.mem_filter.mp hkvx).1
      have hkvy2 := (List.mem_filter.mp hkvy).1
      have : kvx = kvy := hinjc kvx hkvx2 kvy hkvy2 (by rw [hxe, hye, hxy])
      rw [← hxe, ← hye, this]
    have hq3 : goSortByName (differentPre cur1 mr1) = goSortByName (differentPre cur2 mr2) := by
      refine sorted_perm_eq_of_name_inj _ _ hp3 (goSortByName_sorted _)
        (goSortByName_sorted _) ?_
      intro x hx y hy hxy
      have hx2 := (goSortByName_perm _).mem_iff.mp hx
      have hy2 := (goSortByName_perm _).mem_iff.mp hy
      unfold differentPre at hx2 hy2
      obtain ⟨kvx, hkvx, hxe⟩ := List.mem_filterMap.mp hx2
      obtain ⟨kvy, hkvy, hye⟩ := List.mem_filterMap.mp hy2
      have hxn := differentPreFn_name mr1 kvx x hxe
      have hyn := differentPreFn_name mr1 kvy y hye
      have hkk : kvx = kvy := hinjc kvx hkvx kvy hkvy (by rw [← hxn, ← hyn, hxy])
      rw [hkk] at hxe
      rw [hxe] at hye
      exact (Option.some.injEq x y ▸ hye :)
    rw [show compareMods cur1 mr1 =
        (goSortByName (missingPre cur1 mr1), goSortByName (extraPre cur1 mr1),
         goSortByName (differentPre cur1 mr1)) from rfl,
      show compareMods cur2 mr2 =
        (goSortByName (missingPre cur2 mr2), goSortByName (extraPre cur2 mr2),
         goSortByName (differentPre cur2 mr2)) from rfl,
      hq1, hq2, hq3]

/-- C4 witness: with distinct display names, two iteration orders of the
same current map produce identical diff output. -/
theorem c4_diff_deterministic_amended_witness :
    compareMods [("p1", dupNameMod1), ("p3", distinctNameMod)] [] =
      compareMods [("p3", distinctNameMod), ("p1", dupNameMod1)] [] :=
  (c4_diff_deterministic_amended
    [("p1", dupNameMod1), ("p3", distinctNameMod)]
    [("p3", distinctNameMod), ("p1", dupNameMod1)] [] []
    (by decide) (List.Perm.refl []) (by decide) (by decide)).2.2
    (by decide) (by decide)

/-! ## C8: the diff command is read-only -/

/-- C8: for every disk state, mrpack input and remote-oracle behavior, the
diff command returns the disk state unchanged: it never mutates the Index
and never writes a file — every path of the pipeline (including each
failure exit) only reads. -/
theorem c8_diff_read_only (disk : Disk) (mrpackFile : Option MrpackIndex)
    (lookupVersions : List String → Option (List (String × HashResponse)))
    (getProjects : List String → Option (List MrProject))
    (sideOf : MrProject → String) :
    (diffCmdRun disk mrpackFile lookupVersions getProjects sideOf).1 = disk := by
  unfold diffCmdRun
  repeat' split
  all_goals rfl

end Packwiz
